import Mathlib

/-!
# Auth realm service (`pkg/services/auth_realms.go`)

A shallow embedding of the HTTP handlers of the auth realm service together
with the properties of its account scoping and validation rules.

The handlers talk to four collaborators whose code lives outside the service
file: the record type (`models.AuthRealm`), the account resolver
(`common.GetAccount`), the error responders (`errors.RespondWith…`) and the
store handle (`db.DB`).  The record type and the responders are modelled from
the specification; the outcome of the resolver, of the JSON decoder and of the
URL router are fields of the request; the store is a parameter of every
handler.
-/

namespace services

/-! ## Data model -/

/-- Modelled from the spec: `models.AuthRealm`, the sole entity.  Timestamps
are natural numbers, `DeletedAt = none` is an active record, and
`CustomResource = none` is the nil payload. -/
structure AuthRealm where
  ID : Nat
  CreatedAt : Nat
  UpdatedAt : Nat
  DeletedAt : Option Nat
  Account : String
  Name : String
  CustomResource : Option (List (String × String))
deriving DecidableEq

/-- An error value returned by the store.  `isRecordNotFound` is the result of
`errs.Is(err, gorm.ErrRecordNotFound)`, `msg` is `err.Error()`. -/
structure DBError where
  msg : String
  isRecordNotFound : Bool
deriving DecidableEq

/-! ## Response writer -/

/-- What a handler writes to the response body.  JSON encoding is kept
symbolic: the payload records the value that was encoded. -/
inductive Payload where
  | error (msg : String)
  | authRealm (r : AuthRealm)
  | authRealms (rs : List AuthRealm)
  | text (s : String)
deriving DecidableEq

/-- The `http.ResponseWriter` of one request: the header map, the status code
(`none` until the header has been written) and the body written so far. -/
structure ResponseWriter where
  header : List (String × String)
  status : Option Nat
  body : List Payload
deriving DecidableEq

/-- A writer on which nothing has been set or written. -/
def ResponseWriter.fresh : ResponseWriter :=
  { header := [], status := none, body := [] }

/-- The call `w.Header().Set(k, v)`. -/
def ResponseWriter.HeaderSet (k v : String) (w : ResponseWriter) : ResponseWriter :=
  { w with header := (k, v) :: w.header.filter (fun kv => kv.1 != k) }

/-- The call `w.WriteHeader(code)`: the first status written wins. -/
def ResponseWriter.WriteHeader (code : Nat) (w : ResponseWriter) : ResponseWriter :=
  match w.status with
  | none => { w with status := some code }
  | some _ => w

/-- A write to the body; it sends status 200 when no status was written. -/
def ResponseWriter.Write (p : Payload) (w : ResponseWriter) : ResponseWriter :=
  let w1 := w.WriteHeader 200
  { w1 with body := w1.body ++ [p] }

def StatusOK : Nat := 200
def StatusBadRequest : Nat := 400
def StatusForbidden : Nat := 403
def StatusNotFound : Nat := 404
def StatusConflict : Nat := 409
def StatusInternalServerError : Nat := 500

/-- Modelled from the spec: the responders of `pkg/errors`.  Each error is
translated to its response code with the message as payload. -/
def RespondWith (code : Nat) (message : String) (w : ResponseWriter) : ResponseWriter :=
  (w.WriteHeader code).Write (.error message)

/-- Modelled from the spec: `errors.RespondWithBadRequest`. -/
def RespondWithBadRequest (message : String) (w : ResponseWriter) : ResponseWriter :=
  RespondWith StatusBadRequest message w

/-- Modelled from the spec: `errors.RespondWithForbidden`. -/
def RespondWithForbidden (message : String) (w : ResponseWriter) : ResponseWriter :=
  RespondWith StatusForbidden message w

/-- Modelled from the spec: `errors.RespondWithNotFound`. -/
def RespondWithNotFound (message : String) (w : ResponseWriter) : ResponseWriter :=
  RespondWith StatusNotFound message w

/-- Modelled from the spec: `errors.RespondWithConflict`. -/
def RespondWithConflict (message : String) (w : ResponseWriter) : ResponseWriter :=
  RespondWith StatusConflict message w

/-- Modelled from the spec: `errors.RespondWithInternalServerError`. -/
def RespondWithInternalServerError (message : String) (w : ResponseWriter) : ResponseWriter :=
  RespondWith StatusInternalServerError message w

/-! ## Requests -/

/-- The outcome of `json.NewDecoder(rc).Decode(&authRealm)` on a request body:
`io.EOF` on an empty body, another error on a malformed one, or the decoded
record. -/
inductive Body where
  | eof
  | malformed (err : String)
  | json (v : AuthRealm)
deriving DecidableEq

/-- The parts of an `*http.Request` the handlers read.  `account` is what the
account resolver returns for the request, `urlParamID` is
`chi.URLParam(r, "id")`, `ctxAuthRealm` is the context value stored under
`AuthRealmKey`. -/
structure Request where
  account : Except String String
  urlParamID : String
  body : Body
  ctxAuthRealm : Option AuthRealm

/-- Modelled from the spec: `common.GetAccount`, the account resolver.  It
yields the caller's account identifier or fails. -/
def GetAccount (r : Request) : Except String String :=
  r.account

/-- Modelled from the spec: the contract of the account resolver
`common.GetAccount`, whose code lies outside the service file.  The account it
resolves is the caller's pre-validated tenant identifier, hence not the empty
string; a request without one is a resolution failure. -/
def Request.accountResolved (r : Request) : Prop :=
  ∀ account, GetAccount r = .ok account → account ≠ ""

/-! ## Store -/

/-- The store handle `db.DB` as seen by the handlers, over a store state `σ`.
Every call returns its result and the state after the call.  `Create` and
`Save` return the record as the store left it in the caller's variable. -/
structure DB (σ : Type) where
  Find : String → σ → Except DBError (List AuthRealm) × σ
  First : String → σ → Except DBError AuthRealm × σ
  Create : AuthRealm → σ → Except DBError AuthRealm × σ
  Save : AuthRealm → σ → Except DBError AuthRealm × σ
  Delete : AuthRealm → σ → Option DBError × σ

/-- A handler: it transforms the response writer and the store state. -/
abbrev Handler (σ : Type) : Type :=
  ResponseWriter → Request → σ → ResponseWriter × σ

/-! ## Strings -/

/-- The function `strings.ToLower`, mapping every rune through the rune
lower-casing `lc` (`unicode.ToLower`). -/
def ToLower (lc : Char → Char) (s : String) : String :=
  ⟨s.data.map lc⟩

/-- Substring search on rune lists. -/
def containsRunes (sub : List Char) : List Char → Bool
  | [] => sub.isEmpty
  | c :: cs => sub.isPrefixOf (c :: cs) || containsRunes sub cs

/-- The function `strings.Contains`. -/
def Contains (s substr : String) : Bool :=
  containsRunes substr.data s.data

/-! ## Handlers -/

/-- Source: `validateAccount`; `none` is the nil error. -/
def validateAccount (authRealm : AuthRealm) (account : String) : Option String :=
  if authRealm.Account ≠ "" ∧ authRealm.Account ≠ account then
    some "mismatch in account"
  else
    none

/-- Source: `getAuthRealm`. -/
def getAuthRealm (w : ResponseWriter) (r : Request) : ResponseWriter × Option AuthRealm :=
  match r.ctxAuthRealm with
  | none => (RespondWithBadRequest "The request must include an auth realm id" w, none)
  | some authRealm => (w, some authRealm)

/-- Source: `authRealmFromRequestBody`. -/
def authRealmFromRequestBody (rc : Body) : Except String AuthRealm :=
  match rc with
  | .eof => .error "request body must not be empty"
  | .malformed err => .error err
  | .json authRealm => .ok authRealm

/-- Source: `GetAuthRealmsForAccount`. -/
def GetAuthRealmsForAccount {σ : Type} (db : DB σ) : Handler σ := fun w r s =>
  let w := w.HeaderSet "Content-Type" "application/json"
  match GetAccount r with
  | .error err => (RespondWithBadRequest err w, s)
  | .ok account =>
    match db.Find account s with
    | (.error e, s1) => (RespondWithBadRequest e.msg w, s1)
    | (.ok authRealms, s1) => (w.Write (.authRealms authRealms), s1)

/-- Source: `CreateAuthRealmForAccount`. -/
def CreateAuthRealmForAccount {σ : Type} (lc : Char → Char) (db : DB σ) : Handler σ :=
  fun w r s =>
  let w := w.HeaderSet "Content-Type" "application/json"
  match GetAccount r with
  | .error err => (RespondWithBadRequest err w, s)
  | .ok account =>
    match authRealmFromRequestBody r.body with
    | .error err => (RespondWithBadRequest err w, s)
    | .ok authRealm =>
      if authRealm.Name = "" ∨ authRealm.CustomResource = none then
        (RespondWithBadRequest "The request body must contain 'name' and 'custom_resource'" w, s)
      else if authRealm.Account ≠ "" ∧ (validateAccount authRealm account).isSome then
        (RespondWithBadRequest
          "Account in the request body does not match account for the authenticated user" w, s)
      else
        let authRealm := { authRealm with Account := account }
        match db.Create authRealm s with
        | (.error e, s1) =>
          if Contains (ToLower lc e.msg) "unique constraint" then
            (RespondWithConflict ("Error creating record in the DB: " ++ e.msg) w, s1)
          else
            (RespondWithInternalServerError ("Error creating record in the DB: " ++ e.msg) w, s1)
        | (.ok authRealm, s1) =>
          (((w.WriteHeader StatusOK).Write (.authRealm authRealm)), s1)

/-- Source: `AuthRealmCtx`. -/
def AuthRealmCtx {σ : Type} (db : DB σ) (next : Handler σ) : Handler σ := fun w r s =>
  let w := w.HeaderSet "Content-Type" "application/json"
  match GetAccount r with
  | .error err => (RespondWithBadRequest err w, s)
  | .ok account =>
    if r.urlParamID ≠ "" then
      match db.First r.urlParamID s with
      | (.error e, s1) =>
        if e.isRecordNotFound then
          (RespondWithNotFound e.msg w, s1)
        else
          (RespondWithInternalServerError e.msg w, s1)
      | (.ok authRealm, s1) =>
        if authRealm.Account ≠ "" ∧ (validateAccount authRealm account).isSome then
          (RespondWithForbidden "Requestor's account does not match the Auth Realm account" w, s1)
        else
          next w { r with ctxAuthRealm := some authRealm } s1
    else
      (w, s)

/-- Source: `GetAuthRealmByID`. -/
def GetAuthRealmByID {σ : Type} : Handler σ := fun w r s =>
  match getAuthRealm w r with
  | (w, some authRealm) => (w.Write (.authRealm authRealm), s)
  | (w, none) => (w, s)

/-- Source: `UpdateAuthRealmByID`. -/
def UpdateAuthRealmByID {σ : Type} (lc : Char → Char) (db : DB σ) : Handler σ := fun w r s =>
  match getAuthRealm w r with
  | (w, none) => (w, s)
  | (w, some authRealm) =>
    match authRealmFromRequestBody r.body with
    | .error err => (RespondWithBadRequest err w, s)
    | .ok incoming =>
      if incoming.Account ≠ "" ∧ incoming.Account ≠ authRealm.Account then
        (RespondWithBadRequest
          "Account number in request body does not match the auth realm account" w, s)
      else if incoming.Name = "" ∨ incoming.CustomResource = none then
        (RespondWithBadRequest
          "The request body must contain 'name' and 'custom_resource' for update" w, s)
      else
        let incoming := { incoming with
          ID := authRealm.ID, Account := authRealm.Account, CreatedAt := authRealm.CreatedAt }
        match db.Save incoming s with
        | (.error err, s1) =>
          if Contains (ToLower lc err.msg) "unique constraint" then
            (RespondWithConflict ("Error updating record in the DB: " ++ err.msg) w, s1)
          else
            (RespondWithInternalServerError ("Error updating record in the DB: " ++ err.msg) w, s1)
        | (.ok incoming, s1) => (w.Write (.authRealm incoming), s1)

/-- Source: `DeleteAuthRealmByID`. -/
def DeleteAuthRealmByID {σ : Type} (db : DB σ) : Handler σ := fun w r s =>
  match getAuthRealm w r with
  | (w, none) => (w, s)
  | (w, some authRealm) =>
    match db.Delete authRealm s with
    | (some err, s1) => (RespondWithInternalServerError err.msg w, s1)
    | (none, s1) =>
      (w.Write (.text ("Auth realm with ID " ++ toString authRealm.ID ++
        " was successfully deleted")), s1)

/-! ## Routes -/

/-- Modelled from the spec: the routing glue.  Fetch runs `GetAuthRealmByID`
behind the `AuthRealmCtx` lookup. -/
def FetchRoute {σ : Type} (db : DB σ) : Handler σ :=
  AuthRealmCtx db GetAuthRealmByID

/-- Modelled from the spec: the routing glue.  Update performs the lookup
first. -/
def UpdateRoute {σ : Type} (lc : Char → Char) (db : DB σ) : Handler σ :=
  AuthRealmCtx db (UpdateAuthRealmByID lc db)

/-- Modelled from the spec: the routing glue.  Delete performs the lookup
first. -/
def DeleteRoute {σ : Type} (db : DB σ) : Handler σ :=
  AuthRealmCtx db (DeleteAuthRealmByID db)

/-! ## Observing the store calls -/

/-- One call on the store handle, with its argument. -/
inductive DBCall where
  | Find (account : String)
  | First (id : String)
  | Create (r : AuthRealm)
  | Save (r : AuthRealm)
  | Delete (r : AuthRealm)
deriving DecidableEq

/-- The store `db` with a monitor attached: the state is paired with the list
of calls issued so far, in order.  Results and the underlying state are those
of `db`. -/
def DB.traced {σ : Type} (db : DB σ) : DB (σ × List DBCall) where
  Find a s := ((db.Find a s.1).1, ((db.Find a s.1).2, s.2 ++ [.Find a]))
  First i s := ((db.First i s.1).1, ((db.First i s.1).2, s.2 ++ [.First i]))
  Create x s := ((db.Create x s.1).1, ((db.Create x s.1).2, s.2 ++ [.Create x]))
  Save x s := ((db.Save x s.1).1, ((db.Save x s.1).2, s.2 ++ [.Save x]))
  Delete x s := ((db.Delete x s.1).1, ((db.Delete x s.1).2, s.2 ++ [.Delete x]))

/-! ## An in-memory store -/

/-- Modelled from the spec: the Record Store, a table of auth realm records
with lookup by id, list by account, insert, save and soft delete.  `fault` is
a pending failure: when set, the next call fails with it and changes no row. -/
structure MemStore where
  rows : List AuthRealm
  nextID : Nat
  clock : Nat
  fault : Option DBError
deriving DecidableEq

/-- The value of a decimal digit. -/
def digitValue (c : Char) : Option Nat :=
  if c.isDigit then some (c.toNat - 48) else none

/-- Reading a record id: a non-empty string of decimal digits. -/
def parseID (cs : List Char) : Option Nat :=
  match cs with
  | [] => none
  | _ => cs.foldl (fun acc c => acc.bind fun n => (digitValue c).map fun d => 10 * n + d) (some 0)

/-- An active record of the same account and name already exists under
another id. -/
def MemStore.violatesUnique (s : MemStore) (x : AuthRealm) : Bool :=
  s.rows.any fun y =>
    y.DeletedAt.isNone && x.DeletedAt.isNone && (y.ID != x.ID) &&
      (y.Account == x.Account) && (y.Name == x.Name)

def uniqueViolation : DBError :=
  { msg := "UNIQUE constraint failed: auth_realms.account, auth_realms.name",
    isRecordNotFound := false }

def recordNotFound : DBError :=
  { msg := "record not found", isRecordNotFound := true }

/-- Modelled from the spec: the operations of the Record Store on the
in-memory table. -/
def memDB : DB MemStore where
  Find account s :=
    match s.fault with
    | some e => (.error e, { s with fault := none })
    | none => (.ok (s.rows.filter fun y => y.DeletedAt.isNone && (y.Account == account)), s)
  First id s :=
    match s.fault with
    | some e => (.error e, { s with fault := none })
    | none =>
      match parseID id.data with
      | none => (.error { msg := "invalid record id", isRecordNotFound := false }, s)
      | some n =>
        match s.rows.find? fun y => y.DeletedAt.isNone && (y.ID == n) with
        | none => (.error recordNotFound, s)
        | some y => (.ok y, s)
  Create x s :=
    match s.fault with
    | some e => (.error e, { s with fault := none })
    | none =>
      let y := { x with ID := s.nextID, CreatedAt := s.clock, UpdatedAt := s.clock }
      if s.violatesUnique y then (.error uniqueViolation, s)
      else (.ok y, { s with rows := s.rows ++ [y], nextID := s.nextID + 1, clock := s.clock + 1 })
  Save x s :=
    match s.fault with
    | some e => (.error e, { s with fault := none })
    | none =>
      let y := { x with UpdatedAt := s.clock }
      if s.violatesUnique y then (.error uniqueViolation, s)
      else if s.rows.any (fun z => z.ID == y.ID) then
        (.ok y, { s with rows := s.rows.map (fun z => if z.ID = y.ID then y else z),
                         clock := s.clock + 1 })
      else
        (.ok y, { s with rows := s.rows ++ [y], clock := s.clock + 1 })
  Delete x s :=
    match s.fault with
    | some e => (some e, { s with fault := none })
    | none =>
      (none, { s with
        rows := s.rows.map (fun z =>
          if z.ID = x.ID ∧ z.DeletedAt = none then { z with DeletedAt := some s.clock } else z),
        clock := s.clock + 1 })

/-! ## Store contents and the record invariant -/

/-- The record carries an owner, a name and a payload. -/
def AuthRealm.wellFormed (x : AuthRealm) : Prop :=
  x.Account ≠ "" ∧ x.Name ≠ "" ∧ x.CustomResource ≠ none

instance (x : AuthRealm) : Decidable x.wellFormed := by
  unfold AuthRealm.wellFormed; infer_instance

/-- Every record of the table carries an owner, a name and a payload. -/
def StoreInv (rows : List AuthRealm) : Prop :=
  ∀ x ∈ rows, x.wellFormed

instance (rows : List AuthRealm) : Decidable (StoreInv rows) := by
  unfold StoreInv; infer_instance

/-- The records `x` and `y` agree on owner, name and payload. -/
def AuthRealm.sameData (x y : AuthRealm) : Prop :=
  x.Account = y.Account ∧ x.Name = y.Name ∧ x.CustomResource = y.CustomResource

/-- A store whose table is read by `rows` and whose calls respect the frame
of a record store: reads leave the table alone, a found record is a stored
record, an insert or a save adds at most records carrying the data they were
given, and a delete only marks records. -/
structure DB.Lawful {σ : Type} (db : DB σ) (rows : σ → List AuthRealm) : Prop where
  find_rows : ∀ a s, rows (db.Find a s).2 = rows s
  first_rows : ∀ i s, rows (db.First i s).2 = rows s
  first_mem : ∀ i s x, (db.First i s).1 = .ok x → x ∈ rows s
  create_rows : ∀ x s y, y ∈ rows (db.Create x s).2 → y ∈ rows s ∨ y.sameData x
  save_rows : ∀ x s y, y ∈ rows (db.Save x s).2 → y ∈ rows s ∨ y.sameData x
  delete_rows : ∀ x s y, y ∈ rows (db.Delete x s).2 → ∃ z ∈ rows s, y.sameData z

/-! ## Sample data -/

def realmA : AuthRealm :=
  { ID := 1, CreatedAt := 5, UpdatedAt := 5, DeletedAt := none, Account := "A",
    Name := "realm1", CustomResource := some [("k", "v")] }

def bodyRealm : AuthRealm :=
  { ID := 0, CreatedAt := 0, UpdatedAt := 0, DeletedAt := none, Account := "",
    Name := "realm2", CustomResource := some [("k", "v")] }

def storeA : MemStore :=
  { rows := [realmA], nextID := 2, clock := 7, fault := none }

def failingStore : MemStore :=
  { storeA with fault := some { msg := "connection refused", isRecordNotFound := false } }

def asciiLower (c : Char) : Char :=
  c.toLower

/-! ## Sample requests -/

def listRequest : Request :=
  { account := .ok "A", urlParamID := "", body := .eof, ctxAuthRealm := none }

/-- A create request by account `A` whose body names account `B`. -/
def spoofRequest : Request :=
  { account := .ok "A", urlParamID := "",
    body := .json { bodyRealm with Account := "B" }, ctxAuthRealm := none }

/-- A fetch of record `1` by account `B`. -/
def fetchOtherRequest : Request :=
  { account := .ok "B", urlParamID := "1", body := .eof, ctxAuthRealm := none }

/-- A fetch of record `9`, which the store does not hold, by account `B`. -/
def fetchAbsentRequest : Request :=
  { account := .ok "B", urlParamID := "9", body := .eof, ctxAuthRealm := none }

/-- A stored record without an owner. -/
def ownerlessRealm : AuthRealm :=
  { realmA with ID := 3, Account := "", Name := "shared" }

def ownerlessStore : MemStore :=
  { rows := [realmA, ownerlessRealm], nextID := 4, clock := 7, fault := none }

/-- A fetch of the ownerless record `3` by account `B`. -/
def fetchOwnerlessRequest : Request :=
  { account := .ok "B", urlParamID := "3", body := .eof, ctxAuthRealm := none }

/-- A record of account `A` fetched for update. -/
def updateRequest : Request :=
  { account := .ok "A", urlParamID := "1",
    body := .json { bodyRealm with ID := 44, Account := "A", CreatedAt := 99 },
    ctxAuthRealm := some realmA }

/-- A create request by account `A` whose body names no account. -/
def createRequest : Request :=
  { account := .ok "A", urlParamID := "", body := .json bodyRealm, ctxAuthRealm := none }

/-- An update of record `1` whose body carries a payload and no name. -/
def namelessRequest : Request :=
  { account := .ok "A", urlParamID := "1", body := .json { bodyRealm with Name := "" },
    ctxAuthRealm := some realmA }

/-- A create request by account `A` for a name that account `A` already
uses. -/
def duplicateRequest : Request :=
  { account := .ok "A", urlParamID := "", body := .json { bodyRealm with Name := "realm1" },
    ctxAuthRealm := none }

/-! ## Facts about the response writer -/

theorem HeaderSet_status (k v : String) (w : ResponseWriter) :
    (w.HeaderSet k v).status = w.status := rfl

theorem HeaderSet_body (k v : String) (w : ResponseWriter) :
    (w.HeaderSet k v).body = w.body := rfl

theorem RespondWith_status (code : Nat) (m : String) (w : ResponseWriter)
    (hw : w.status = none) : (RespondWith code m w).status = some code := by
  simp [RespondWith, ResponseWriter.Write, ResponseWriter.WriteHeader, hw]

theorem RespondWith_body (code : Nat) (m : String) (w : ResponseWriter) :
    (RespondWith code m w).body = w.body ++ [.error m] := by
  unfold RespondWith ResponseWriter.Write ResponseWriter.WriteHeader
  cases h : w.status <;> simp [h]

theorem Write_status (p : Payload) (w : ResponseWriter) (hw : w.status = none) :
    (w.Write p).status = some 200 := by
  simp [ResponseWriter.Write, ResponseWriter.WriteHeader, hw]

theorem Write_body (p : Payload) (w : ResponseWriter) :
    (w.Write p).body = w.body ++ [p] := by
  unfold ResponseWriter.Write ResponseWriter.WriteHeader
  cases h : w.status <;> simp [h]

theorem validateAccount_isSome (x : AuthRealm) (account : String) :
    (validateAccount x account).isSome = true ↔ x.Account ≠ "" ∧ x.Account ≠ account := by
  unfold validateAccount
  by_cases h : x.Account ≠ "" ∧ x.Account ≠ account
  · rw [if_pos h]; exact ⟨fun _ => h, fun _ => rfl⟩
  · rw [if_neg h]; exact ⟨fun h0 => (by cases h0), fun h1 => absurd h1 h⟩

/-! ## Create: account mismatch -/

/-- C1: a create request whose parsed body names a non-empty account different
from the resolved caller account is answered with BadRequest carrying an error
message only, and the handler issues no store call: the list of calls and the
store state are unchanged. -/
theorem create_account_mismatch_bad_request {σ : Type} (lc : Char → Char) (db : DB σ)
    (w : ResponseWriter) (r : Request) (s : σ) (log : List DBCall) (account : String)
    (b : AuthRealm) (hw : w.status = none) (hacc : r.account = .ok account)
    (hbody : r.body = .json b) (hne : b.Account ≠ "") (hdiff : b.Account ≠ account) :
    (CreateAuthRealmForAccount lc db.traced w r (s, log)).1.status = some StatusBadRequest ∧
    (∃ m, (CreateAuthRealmForAccount lc db.traced w r (s, log)).1.body = w.body ++ [.error m]) ∧
    (CreateAuthRealmForAccount lc db.traced w r (s, log)).2 = (s, log) := by
  have hv : (validateAccount b account).isSome = true :=
    (validateAccount_isSome b account).2 ⟨hne, hdiff⟩
  unfold CreateAuthRealmForAccount
  simp only [GetAccount, hacc, hbody, authRealmFromRequestBody]
  by_cases hp : b.Name = "" ∨ b.CustomResource = none
  · simp only [hp, if_true, RespondWithBadRequest]
    exact ⟨RespondWith_status _ _ _ (by simpa using hw), ⟨_, RespondWith_body _ _ _⟩, trivial⟩
  · simp only [hp, if_false, hne, hv, ne_eq, not_false_eq_true, and_self, if_true,
      RespondWithBadRequest]
    exact ⟨RespondWith_status _ _ _ (by simpa using hw), ⟨_, RespondWith_body _ _ _⟩, trivial⟩

/-- Witness: account `A` sends a create body that names account `B`. -/
theorem create_account_mismatch_bad_request_witness :
    (CreateAuthRealmForAccount asciiLower memDB.traced .fresh spoofRequest (storeA, [])).1.status
        = some StatusBadRequest ∧
    (∃ m, (CreateAuthRealmForAccount asciiLower memDB.traced .fresh spoofRequest
        (storeA, [])).1.body = ResponseWriter.fresh.body ++ [.error m]) ∧
    (CreateAuthRealmForAccount asciiLower memDB.traced .fresh spoofRequest (storeA, [])).2
        = (storeA, []) :=
  create_account_mismatch_bad_request asciiLower memDB .fresh spoofRequest storeA [] "A"
    { bodyRealm with Account := "B" } rfl rfl rfl (by decide) (by decide)

/-! ## Lookup by id -/

/-- The lookup middleware on a request with a resolved account and a
non-empty id, by cases on what the store returns. -/
theorem AuthRealmCtx_unfold {σ : Type} (db : DB σ) (next : Handler σ) (w : ResponseWriter)
    (r : Request) (s : σ) (account : String) (hacc : r.account = .ok account)
    (hid : r.urlParamID ≠ "") :
    AuthRealmCtx db next w r s =
      match db.First r.urlParamID s with
      | (.error e, s1) =>
        if e.isRecordNotFound then
          (RespondWithNotFound e.msg (w.HeaderSet "Content-Type" "application/json"), s1)
        else
          (RespondWithInternalServerError e.msg
            (w.HeaderSet "Content-Type" "application/json"), s1)
      | (.ok x, s1) =>
        if x.Account ≠ "" ∧ x.Account ≠ account then
          (RespondWithForbidden "Requestor's account does not match the Auth Realm account"
            (w.HeaderSet "Content-Type" "application/json"), s1)
        else
          next (w.HeaderSet "Content-Type" "application/json")
            { r with ctxAuthRealm := some x } s1 := by
  unfold AuthRealmCtx
  simp only [GetAccount, hacc, hid, ne_eq, not_false_eq_true, if_true]
  rcases hf : db.First r.urlParamID s with ⟨res, s1⟩
  cases res with
  | error e => rfl
  | ok x =>
    simp only
    by_cases h : x.Account ≠ "" ∧ x.Account ≠ account
    · have hv := (validateAccount_isSome x account).2 h
      simp only [ne_eq] at h
      simp [h, hv]
    · have hv : ¬ (¬ x.Account = "" ∧ (validateAccount x account).isSome = true) :=
        fun hh => h ((validateAccount_isSome x account).1 hh.2)
      simp only [ne_eq] at h
      simp only [h, hv, if_false]

/-- The fetch handler behind a successful lookup writes the record with
status 200. -/
theorem GetAuthRealmByID_found {σ : Type} (w : ResponseWriter) (r : Request) (s : σ)
    (x : AuthRealm) (hctx : r.ctxAuthRealm = some x) :
    GetAuthRealmByID w r s = (w.Write (.authRealm x), s) := by
  simp [GetAuthRealmByID, getAuthRealm, hctx]

/-- C2 as stated fails: account `B` fetches id `9` from a store whose only
record belongs to account `A`; none of the stored records is owned by the
caller, and the response is NotFound, not Forbidden. -/
theorem fetch_absent_record_not_forbidden :
    (∀ x ∈ storeA.rows, x.Account ≠ "B") ∧
    (FetchRoute memDB .fresh fetchAbsentRequest storeA).1.status = some StatusNotFound ∧
    (FetchRoute memDB .fresh fetchAbsentRequest storeA).1.status ≠ some StatusForbidden := by
  decide

/-- C2, amended: for a resolved caller account and a non-empty id, the fetch is
answered Forbidden exactly when the store lookup finds a record whose Account
is non-empty and differs from the caller account. -/
theorem fetch_forbidden_iff {σ : Type} (db : DB σ) (w : ResponseWriter) (r : Request) (s : σ)
    (account : String) (hw : w.status = none) (hacc : r.account = .ok account)
    (hid : r.urlParamID ≠ "") :
    (FetchRoute db w r s).1.status = some StatusForbidden ↔
      ∃ x, (db.First r.urlParamID s).1 = .ok x ∧ x.Account ≠ "" ∧ x.Account ≠ account := by
  have hw1 : (w.HeaderSet "Content-Type" "application/json").status = none := hw
  unfold FetchRoute
  rw [AuthRealmCtx_unfold db _ w r s account hacc hid]
  rcases hf : db.First r.urlParamID s with ⟨res, s1⟩
  cases res with
  | error e =>
    by_cases hn : e.isRecordNotFound = true
    · simp [hn, RespondWithNotFound, RespondWith_status _ _ _ hw1, StatusNotFound,
        StatusForbidden]
    · simp [hn, RespondWithInternalServerError, RespondWith_status _ _ _ hw1,
        StatusInternalServerError, StatusForbidden]
  | ok x =>
    by_cases h : x.Account ≠ "" ∧ x.Account ≠ account
    · simp only [if_pos h, RespondWithForbidden, RespondWith_status _ _ _ hw1, true_iff]
      exact ⟨x, rfl, h⟩
    · simp only [if_neg h]
      rw [GetAuthRealmByID_found _ _ _ x rfl]
      simp only [Write_status _ _ hw1]
      constructor
      · intro h0; simp [StatusForbidden] at h0
      · rintro ⟨y, hy, hy2⟩
        simp only [Except.ok.injEq] at hy
        subst hy
        exact absurd hy2 h

/-- Witness: account `B` fetching record `1` of
account `A`. -/
theorem fetch_forbidden_iff_witness :
    (FetchRoute memDB .fresh fetchOtherRequest storeA).1.status = some StatusForbidden :=
  (fetch_forbidden_iff memDB .fresh fetchOtherRequest storeA "B" rfl rfl (by decide)).2
    ⟨realmA, rfl, by decide, by decide⟩

/-- C7: for a resolved caller account and a non-empty id the lookup middleware
answers NotFound, whatever the downstream handler, exactly when the store
reports record-not-found; InternalError exactly when the store reports another
error; Forbidden exactly when a record is found whose Account is non-empty and
differs from the caller account; and in the remaining case the found record is
handed unchanged to the downstream handler, in particular when its stored
Account is empty. -/
theorem AuthRealmCtx_characterised {σ : Type} (db : DB σ) (w : ResponseWriter) (r : Request)
    (s : σ) (account : String) (hw : w.status = none) (hacc : r.account = .ok account)
    (hid : r.urlParamID ≠ "") :
    ((∀ next, (AuthRealmCtx db next w r s).1.status = some StatusNotFound) ↔
      ∃ e, (db.First r.urlParamID s).1 = .error e ∧ e.isRecordNotFound = true) ∧
    ((∀ next, (AuthRealmCtx db next w r s).1.status = some StatusInternalServerError) ↔
      ∃ e, (db.First r.urlParamID s).1 = .error e ∧ e.isRecordNotFound = false) ∧
    ((∀ next, (AuthRealmCtx db next w r s).1.status = some StatusForbidden) ↔
      ∃ x, (db.First r.urlParamID s).1 = .ok x ∧ x.Account ≠ "" ∧ x.Account ≠ account) ∧
    (∀ x, (db.First r.urlParamID s).1 = .ok x → (x.Account = "" ∨ x.Account = account) →
      ∀ next, AuthRealmCtx db next w r s =
        next (w.HeaderSet "Content-Type" "application/json")
          { r with ctxAuthRealm := some x } (db.First r.urlParamID s).2) := by
  have hw1 : (w.HeaderSet "Content-Type" "application/json").status = none := hw
  have hU := fun next => AuthRealmCtx_unfold db next w r s account hacc hid
  have hex : ∃ _ : Handler σ, True := ⟨fun w0 _ s0 => (w0, s0), trivial⟩
  rcases hf : db.First r.urlParamID s with ⟨res, s1⟩
  simp only [hf] at hU
  cases res with
  | error e =>
    simp only at hU
    by_cases hn : e.isRecordNotFound = true
    · simp only [hn, if_true] at hU
      simp [hU, hn, hex, RespondWithNotFound, RespondWith_status _ _ _ hw1, StatusNotFound,
        StatusForbidden, StatusInternalServerError]
    · simp only [hn, if_false] at hU
      simp [hU, hn, hex, RespondWithInternalServerError, RespondWith_status _ _ _ hw1, StatusNotFound,
        StatusForbidden, StatusInternalServerError]
  | ok x =>
    simp only at hU
    by_cases h : x.Account ≠ "" ∧ x.Account ≠ account
    · simp only [if_pos h] at hU
      have hno : ¬ (x.Account = "" ∨ x.Account = account) := by
        rintro (h1 | h1)
        · exact h.1 h1
        · exact h.2 h1
      simp [hU, h, hno, hex, RespondWithForbidden, RespondWith_status _ _ _ hw1, StatusNotFound,
        StatusForbidden, StatusInternalServerError]
    · simp only [if_neg h] at hU
      have hyes : x.Account = "" ∨ x.Account = account := by
        by_contra hc
        exact h ⟨fun h1 => hc (Or.inl h1), fun h1 => hc (Or.inr h1)⟩
      have key : ∀ code : Nat, code ≠ 200 →
          ¬ ∀ next, (AuthRealmCtx db next w r s).1.status = some code := by
        intro code hcode hall
        -- a downstream handler that answers 200
        have h1 := hall (fun w1 _ s1 => (ResponseWriter.Write (.text "") w1, s1))
        rw [hU] at h1
        simp only [Write_status _ _ hw1] at h1
        exact hcode (Option.some.inj h1).symm
      refine ⟨⟨fun hall => absurd hall (key _ (by decide)), ?_⟩,
        ⟨fun hall => absurd hall (key _ (by decide)), ?_⟩,
        ⟨fun hall => absurd hall (key _ (by decide)), ?_⟩, ?_⟩
      · rintro ⟨e, he, _⟩; cases he
      · rintro ⟨e, he, _⟩; cases he
      · rintro ⟨y, hy, hy2⟩
        simp only [Except.ok.injEq] at hy
        subst hy
        exact absurd hy2 h
      · intro y hy _ next
        simp only [Except.ok.injEq] at hy
        subst hy
        exact hU next

/-- Witness: account `B` looks up record `3`,
whose stored Account is empty, and the record reaches the downstream
handler. -/
theorem AuthRealmCtx_characterised_witness :
    AuthRealmCtx memDB GetAuthRealmByID .fresh fetchOwnerlessRequest ownerlessStore =
      GetAuthRealmByID (ResponseWriter.fresh.HeaderSet "Content-Type" "application/json")
        { fetchOwnerlessRequest with ctxAuthRealm := some ownerlessRealm } ownerlessStore :=
  (AuthRealmCtx_characterised memDB .fresh fetchOwnerlessRequest ownerlessStore "B" rfl rfl
    (by decide)).2.2.2 ownerlessRealm rfl (Or.inl rfl) GetAuthRealmByID

/-- C10: with a resolved account and an empty `id` URL parameter the lookup
middleware only sets the content type: it issues no store call, leaves the
store state alone, writes no status and no body, and its result does not
depend on the downstream handler, which is not invoked. -/
theorem AuthRealmCtx_empty_id {σ : Type} (db : DB σ) (next : Handler (σ × List DBCall))
    (w : ResponseWriter) (r : Request) (s : σ) (log : List DBCall) (account : String)
    (hacc : r.account = .ok account) (hid : r.urlParamID = "") :
    AuthRealmCtx db.traced next w r (s, log) =
        (w.HeaderSet "Content-Type" "application/json", (s, log)) ∧
    (AuthRealmCtx db.traced next w r (s, log)).1.status = w.status ∧
    (AuthRealmCtx db.traced next w r (s, log)).1.body = w.body := by
  have h : AuthRealmCtx db.traced next w r (s, log) =
      (w.HeaderSet "Content-Type" "application/json", (s, log)) := by
    unfold AuthRealmCtx
    simp [GetAccount, hacc, hid]
  rw [h]
  exact ⟨rfl, rfl, rfl⟩

/-- Witness: a fresh writer stays without status
and body. -/
theorem AuthRealmCtx_empty_id_witness :
    AuthRealmCtx memDB.traced GetAuthRealmByID .fresh listRequest (storeA, []) =
        (ResponseWriter.fresh.HeaderSet "Content-Type" "application/json", (storeA, [])) ∧
    (AuthRealmCtx memDB.traced GetAuthRealmByID .fresh listRequest (storeA, [])).1.status
        = ResponseWriter.fresh.status ∧
    (AuthRealmCtx memDB.traced GetAuthRealmByID .fresh listRequest (storeA, [])).1.body
        = ResponseWriter.fresh.body :=
  AuthRealmCtx_empty_id memDB GetAuthRealmByID .fresh listRequest storeA [] "A" rfl rfl

/-! ## List -/

/-- C3, the behaviour of the code: when the store query of the list handler
fails, the handler answers BadRequest (400) with the store message, not an
internal error. -/
theorem list_store_failure_status {σ : Type} (db : DB σ) (w : ResponseWriter) (r : Request)
    (s : σ) (account : String) (e : DBError) (hw : w.status = none)
    (hacc : r.account = .ok account) (hfail : (db.Find account s).1 = .error e) :
    (GetAuthRealmsForAccount db w r s).1.status = some StatusBadRequest ∧
    (GetAuthRealmsForAccount db w r s).1.status ≠ some StatusInternalServerError ∧
    (GetAuthRealmsForAccount db w r s).1.body = w.body ++ [.error e.msg] := by
  have hw1 : (w.HeaderSet "Content-Type" "application/json").status = none := hw
  unfold GetAuthRealmsForAccount
  simp only [GetAccount, hacc]
  rcases hf : db.Find account s with ⟨res, s1⟩
  rw [hf] at hfail
  simp only at hfail
  subst hfail
  simp only [RespondWithBadRequest, RespondWith_status _ _ _ hw1, RespondWith_body,
    HeaderSet_body, true_and, and_true]
  decide

/-- Witness: account `A` lists while the store
refuses the connection. -/
theorem list_store_failure_status_witness :
    (GetAuthRealmsForAccount memDB .fresh listRequest failingStore).1.status
        = some StatusBadRequest ∧
    (GetAuthRealmsForAccount memDB .fresh listRequest failingStore).1.status
        ≠ some StatusInternalServerError ∧
    (GetAuthRealmsForAccount memDB .fresh listRequest failingStore).1.body
        = ResponseWriter.fresh.body ++ [.error "connection refused"] :=
  list_store_failure_status memDB .fresh listRequest failingStore "A"
    { msg := "connection refused", isRecordNotFound := false } rfl rfl rfl

/-! ## Update: immutable fields -/

/-- C4: when the looked-up record is `existing` and the request body passes
validation, the update handler issues exactly one store call, a save, and the
record it hands to the save has the ID, Account and CreatedAt of `existing`,
whatever the body carried for them, and the Name and CustomResource of the
body; so the Account of a record does not change through update. -/
theorem update_saves_existing_identity {σ : Type} (lc : Char → Char) (db : DB σ)
    (w : ResponseWriter) (r : Request) (s : σ) (log : List DBCall)
    (existing incoming : AuthRealm) (hctx : r.ctxAuthRealm = some existing)
    (hbody : r.body = .json incoming)
    (hacct : incoming.Account = "" ∨ incoming.Account = existing.Account)
    (hname : incoming.Name ≠ "") (hcr : incoming.CustomResource ≠ none) :
    ∃ x, (UpdateAuthRealmByID lc db.traced w r (s, log)).2.2 = log ++ [.Save x] ∧
      x.ID = existing.ID ∧ x.Account = existing.Account ∧ x.CreatedAt = existing.CreatedAt ∧
      x.Name = incoming.Name ∧ x.CustomResource = incoming.CustomResource ∧
      (UpdateAuthRealmByID lc db.traced w r (s, log)).2.1 = (db.Save x s).2 := by
  refine ⟨{ incoming with
    ID := existing.ID, Account := existing.Account, CreatedAt := existing.CreatedAt },
    ?_, rfl, rfl, rfl, rfl, rfl, ?_⟩
  all_goals
    have h1 : ¬ (incoming.Account ≠ "" ∧ incoming.Account ≠ existing.Account) := by
      rintro ⟨h1, h2⟩
      rcases hacct with h | h
      · exact h1 h
      · exact h2 h
    have h2 : ¬ (incoming.Name = "" ∨ incoming.CustomResource = none) := by
      rintro (h | h)
      · exact hname h
      · exact hcr h
    unfold UpdateAuthRealmByID
    simp only [getAuthRealm, hctx, hbody, authRealmFromRequestBody, if_neg h1, if_neg h2]
    simp only [DB.traced]
    generalize db.Save { incoming with
      ID := existing.ID, Account := existing.Account, CreatedAt := existing.CreatedAt } s = out
    rcases out with ⟨res, s1⟩
    cases res with
    | error e => by_cases hc : Contains (ToLower lc e.msg) "unique constraint" = true <;> simp [hc]
    | ok y => rfl

/-- Witness: the body tries to change the
id and the creation time of record `1`. -/
theorem update_saves_existing_identity_witness :
    ∃ x, (UpdateAuthRealmByID asciiLower memDB.traced .fresh updateRequest (storeA, [])).2.2
        = [] ++ [.Save x] ∧
      x.ID = realmA.ID ∧ x.Account = realmA.Account ∧ x.CreatedAt = realmA.CreatedAt ∧
      x.Name = "realm2" ∧ x.CustomResource = some [("k", "v")] ∧
      (UpdateAuthRealmByID asciiLower memDB.traced .fresh updateRequest (storeA, [])).2.1
        = (memDB.Save x storeA).2 :=
  update_saves_existing_identity asciiLower memDB .fresh updateRequest storeA [] realmA
    { bodyRealm with ID := 44, Account := "A", CreatedAt := 99 } rfl rfl (Or.inr rfl)
    (by decide) (by decide)

/-! ## Create: the inserted record -/

/-- Validation of a create body against the caller account passes. -/
theorem create_checks_pass (b : AuthRealm) (account : String) (hname : b.Name ≠ "")
    (hcr : b.CustomResource ≠ none) (hacct : b.Account = "" ∨ b.Account = account) :
    ¬ (b.Name = "" ∨ b.CustomResource = none) ∧
    ¬ (b.Account ≠ "" ∧ (validateAccount b account).isSome = true) := by
  refine ⟨?_, ?_⟩
  · rintro (h | h)
    · exact hname h
    · exact hcr h
  · rintro ⟨h1, h2⟩
    have h3 := (validateAccount_isSome b account).1 h2
    rcases hacct with h | h
    · exact h1 h
    · exact h3.2 h

/-- Validation of an update body against the looked-up record passes. -/
theorem update_checks_pass (b existing : AuthRealm) (hname : b.Name ≠ "")
    (hcr : b.CustomResource ≠ none) (hacct : b.Account = "" ∨ b.Account = existing.Account) :
    ¬ (b.Account ≠ "" ∧ b.Account ≠ existing.Account) ∧
    ¬ (b.Name = "" ∨ b.CustomResource = none) := by
  refine ⟨?_, ?_⟩
  · rintro ⟨h1, h2⟩
    rcases hacct with h | h
    · exact h1 h
    · exact h2 h
  · rintro (h | h)
    · exact hname h
    · exact hcr h

/-- C5: for a resolved caller account and a parsed body with non-empty Name,
non-nil CustomResource and an Account that is empty or the caller account, the
create handler issues exactly one store call, an insert of a record whose
Account is the caller account and whose Name and CustomResource are those of
the body; and when the insert succeeds the response has status 200 and carries
the record as the store persisted it. -/
theorem create_inserts_for_caller {σ : Type} (lc : Char → Char) (db : DB σ)
    (w : ResponseWriter) (r : Request) (s : σ) (log : List DBCall) (account : String)
    (b : AuthRealm) (hw : w.status = none) (hacc : r.account = .ok account)
    (hbody : r.body = .json b) (hname : b.Name ≠ "") (hcr : b.CustomResource ≠ none)
    (hacct : b.Account = "" ∨ b.Account = account) :
    ∃ x, (CreateAuthRealmForAccount lc db.traced w r (s, log)).2.2 = log ++ [.Create x] ∧
      x.Account = account ∧ x.Name = b.Name ∧ x.CustomResource = b.CustomResource ∧
      (CreateAuthRealmForAccount lc db.traced w r (s, log)).2.1 = (db.Create x s).2 ∧
      ∀ p, (db.Create x s).1 = .ok p →
        (CreateAuthRealmForAccount lc db.traced w r (s, log)).1.status = some StatusOK ∧
        (CreateAuthRealmForAccount lc db.traced w r (s, log)).1.body
          = w.body ++ [.authRealm p] := by
  have hw1 : (w.HeaderSet "Content-Type" "application/json").status = none := hw
  obtain ⟨h1, h2⟩ := create_checks_pass b account hname hcr hacct
  have h2 : ¬ (b.Account ≠ "" ∧ (validateAccount b account).isSome = true) := h2
  refine ⟨{ b with Account := account }, ?_, rfl, rfl, rfl, ?_, ?_⟩
  all_goals
    unfold CreateAuthRealmForAccount
    simp only [GetAccount, hacc, hbody, authRealmFromRequestBody, if_neg h1, if_neg h2]
    simp only [DB.traced]
    generalize db.Create { b with Account := account } s = out
    rcases out with ⟨res, s1⟩
    cases res with
    | error e =>
      by_cases hc : Contains (ToLower lc e.msg) "unique constraint" = true <;> simp [hc]
    | ok y =>
      first
      | rfl
      | (intro p hp
         simp only [Except.ok.injEq] at hp
         subst hp
         refine ⟨?_, ?_⟩
         · simp [ResponseWriter.Write, ResponseWriter.WriteHeader, hw1, StatusOK]
         · simp [Write_body, ResponseWriter.WriteHeader, hw1, HeaderSet_body])

/-- Witness: account `A` creates `realm2`. -/
theorem create_inserts_for_caller_witness :
    ∃ x, (CreateAuthRealmForAccount asciiLower memDB.traced .fresh createRequest
        (storeA, [])).2.2 = [] ++ [.Create x] ∧
      x.Account = "A" ∧ x.Name = "realm2" ∧ x.CustomResource = some [("k", "v")] ∧
      (CreateAuthRealmForAccount asciiLower memDB.traced .fresh createRequest
        (storeA, [])).2.1 = (memDB.Create x storeA).2 ∧
      ∀ p, (memDB.Create x storeA).1 = .ok p →
        (CreateAuthRealmForAccount asciiLower memDB.traced .fresh createRequest
          (storeA, [])).1.status = some StatusOK ∧
        (CreateAuthRealmForAccount asciiLower memDB.traced .fresh createRequest
          (storeA, [])).1.body = ResponseWriter.fresh.body ++ [.authRealm p] :=
  create_inserts_for_caller asciiLower memDB .fresh createRequest storeA [] "A" bodyRealm
    rfl rfl rfl (by decide) (by decide) (Or.inl rfl)

/-! ## Presence validation -/

/-- C6: when the parsed body has an empty Name or a nil CustomResource (either
one is enough), the create handler answers BadRequest and so does the update
handler, each with an error message only, and neither issues a store call: the
list of calls and the store state are unchanged. -/
theorem missing_name_or_resource_bad_request {σ : Type} (lc : Char → Char) (db : DB σ)
    (w : ResponseWriter) (r : Request) (s : σ) (log : List DBCall) (b : AuthRealm)
    (hw : w.status = none) (hbody : r.body = .json b)
    (hmiss : b.Name = "" ∨ b.CustomResource = none) :
    ((CreateAuthRealmForAccount lc db.traced w r (s, log)).1.status = some StatusBadRequest ∧
      (∃ m, (CreateAuthRealmForAccount lc db.traced w r (s, log)).1.body
        = w.body ++ [.error m]) ∧
      (CreateAuthRealmForAccount lc db.traced w r (s, log)).2 = (s, log)) ∧
    ((UpdateAuthRealmByID lc db.traced w r (s, log)).1.status = some StatusBadRequest ∧
      (∃ m, (UpdateAuthRealmByID lc db.traced w r (s, log)).1.body = w.body ++ [.error m]) ∧
      (UpdateAuthRealmByID lc db.traced w r (s, log)).2 = (s, log)) := by
  have hw1 : (w.HeaderSet "Content-Type" "application/json").status = none := hw
  constructor
  · unfold CreateAuthRealmForAccount
    simp only [GetAccount, hbody, authRealmFromRequestBody]
    cases hacc : r.account with
    | error err =>
      exact ⟨RespondWith_status _ _ _ hw1, ⟨_, RespondWith_body _ _ _⟩, rfl⟩
    | ok account =>
      simp only [if_pos hmiss]
      exact ⟨RespondWith_status _ _ _ hw1, ⟨_, RespondWith_body _ _ _⟩, trivial⟩
  · unfold UpdateAuthRealmByID
    simp only [getAuthRealm, hbody, authRealmFromRequestBody]
    cases hctx : r.ctxAuthRealm with
    | none =>
      exact ⟨RespondWith_status _ _ _ hw, ⟨_, RespondWith_body _ _ _⟩, rfl⟩
    | some existing =>
      simp only
      by_cases h1 : b.Account ≠ "" ∧ b.Account ≠ existing.Account
      · rw [if_pos h1]
        exact ⟨RespondWith_status _ _ _ hw, ⟨_, RespondWith_body _ _ _⟩, rfl⟩
      · rw [if_neg h1, if_pos hmiss]
        exact ⟨RespondWith_status _ _ _ hw, ⟨_, RespondWith_body _ _ _⟩, rfl⟩

/-- Witness: a body with a payload
and an empty name. -/
theorem missing_name_or_resource_bad_request_witness :
    ((CreateAuthRealmForAccount asciiLower memDB.traced .fresh namelessRequest
        (storeA, [])).1.status = some StatusBadRequest ∧
      (∃ m, (CreateAuthRealmForAccount asciiLower memDB.traced .fresh namelessRequest
        (storeA, [])).1.body = ResponseWriter.fresh.body ++ [.error m]) ∧
      (CreateAuthRealmForAccount asciiLower memDB.traced .fresh namelessRequest
        (storeA, [])).2 = (storeA, [])) ∧
    ((UpdateAuthRealmByID asciiLower memDB.traced .fresh namelessRequest
        (storeA, [])).1.status = some StatusBadRequest ∧
      (∃ m, (UpdateAuthRealmByID asciiLower memDB.traced .fresh namelessRequest
        (storeA, [])).1.body = ResponseWriter.fresh.body ++ [.error m]) ∧
      (UpdateAuthRealmByID asciiLower memDB.traced .fresh namelessRequest
        (storeA, [])).2 = (storeA, [])) :=
  missing_name_or_resource_bad_request asciiLower memDB .fresh namelessRequest storeA []
    { bodyRealm with Name := "" } rfl rfl (Or.inl rfl)

/-! ## Store write errors -/

/-- The response to a failed store write, given the prefix of the message. -/
theorem write_error_response (lc : Char → Char) (pre : String) (e : DBError)
    (w : ResponseWriter) (hw : w.status = none) :
    let out := if Contains (ToLower lc e.msg) "unique constraint" = true
      then RespondWithConflict (pre ++ e.msg) w
      else RespondWithInternalServerError (pre ++ e.msg) w
    (out.status = some StatusConflict ↔
      Contains (ToLower lc e.msg) "unique constraint" = true) ∧
    (out.status = some StatusInternalServerError ↔
      Contains (ToLower lc e.msg) "unique constraint" = false) ∧
    out.body = w.body ++ [.error (pre ++ e.msg)] := by
  intro out
  by_cases hc : Contains (ToLower lc e.msg) "unique constraint" = true
  · have : out = RespondWithConflict (pre ++ e.msg) w := if_pos hc
    rw [this]
    simp [RespondWithConflict, RespondWith_status _ _ _ hw, RespondWith_body, hc,
      StatusConflict, StatusInternalServerError]
  · have : out = RespondWithInternalServerError (pre ++ e.msg) w := if_neg hc
    rw [this]
    simp [RespondWithInternalServerError, RespondWith_status _ _ _ hw, RespondWith_body, hc,
      StatusConflict, StatusInternalServerError]

/-- C8: when the body passes validation and the store write fails with error
`e`, the create handler (insert) and the update handler (save) answer Conflict
exactly when the lower-cased message of `e` contains "unique constraint" and
InternalError exactly when it does not, and in both cases the body written is
the error message, never a record. -/
theorem write_error_classification {σ : Type} (lc : Char → Char) (db : DB σ)
    (w : ResponseWriter) (r : Request) (s : σ) (account : String) (b existing : AuthRealm)
    (hw : w.status = none) (hbody : r.body = .json b) (hname : b.Name ≠ "")
    (hcr : b.CustomResource ≠ none) :
    (r.account = .ok account → (b.Account = "" ∨ b.Account = account) →
      ∀ e, (db.Create { b with Account := account } s).1 = .error e →
        ((CreateAuthRealmForAccount lc db w r s).1.status = some StatusConflict ↔
          Contains (ToLower lc e.msg) "unique constraint" = true) ∧
        ((CreateAuthRealmForAccount lc db w r s).1.status = some StatusInternalServerError ↔
          Contains (ToLower lc e.msg) "unique constraint" = false) ∧
        (CreateAuthRealmForAccount lc db w r s).1.body
          = w.body ++ [.error ("Error creating record in the DB: " ++ e.msg)]) ∧
    (r.ctxAuthRealm = some existing → (b.Account = "" ∨ b.Account = existing.Account) →
      ∀ e, (db.Save { b with ID := existing.ID, Account := existing.Account,
                             CreatedAt := existing.CreatedAt } s).1 = .error e →
        ((UpdateAuthRealmByID lc db w r s).1.status = some StatusConflict ↔
          Contains (ToLower lc e.msg) "unique constraint" = true) ∧
        ((UpdateAuthRealmByID lc db w r s).1.status = some StatusInternalServerError ↔
          Contains (ToLower lc e.msg) "unique constraint" = false) ∧
        (UpdateAuthRealmByID lc db w r s).1.body
          = w.body ++ [.error ("Error updating record in the DB: " ++ e.msg)]) := by
  have hw1 : (w.HeaderSet "Content-Type" "application/json").status = none := hw
  constructor
  · intro hacc hacct e he
    obtain ⟨h1, h2⟩ := create_checks_pass b account hname hcr hacct
    have h2 : ¬ (b.Account ≠ "" ∧ (validateAccount b account).isSome = true) := h2
    unfold CreateAuthRealmForAccount
    simp only [GetAccount, hacc, hbody, authRealmFromRequestBody, if_neg h1, if_neg h2]
    revert he
    generalize db.Create { b with Account := account } s = out
    rcases out with ⟨res, s1⟩
    intro he
    simp only at he
    subst he
    have key := write_error_response lc "Error creating record in the DB: " e _ hw1
    simp only at key
    by_cases hc : Contains (ToLower lc e.msg) "unique constraint" = true
    · simp only [if_pos hc] at key ⊢
      exact key
    · simp only [if_neg hc] at key ⊢
      exact key
  · intro hctx hacct e he
    obtain ⟨h1, h2⟩ := update_checks_pass b existing hname hcr hacct
    unfold UpdateAuthRealmByID
    simp only [getAuthRealm, hctx, hbody, authRealmFromRequestBody, if_neg h1, if_neg h2]
    revert he
    generalize db.Save { b with
      ID := existing.ID, Account := existing.Account, CreatedAt := existing.CreatedAt } s = out
    rcases out with ⟨res, s1⟩
    intro he
    simp only at he
    subst he
    have key := write_error_response lc "Error updating record in the DB: " e _ hw
    simp only at key
    by_cases hc : Contains (ToLower lc e.msg) "unique constraint" = true
    · simp only [if_pos hc] at key ⊢
      exact key
    · simp only [if_neg hc] at key ⊢
      exact key

/-- Witness: the insert of a duplicate name is
refused by the store with a uniqueness message and answered Conflict; a save
on a store that refuses the connection is answered InternalError. -/
theorem write_error_classification_witness :
    (CreateAuthRealmForAccount asciiLower memDB .fresh duplicateRequest storeA).1.status
        = some StatusConflict ∧
    (UpdateAuthRealmByID asciiLower memDB .fresh updateRequest failingStore).1.status
        = some StatusInternalServerError :=
  ⟨((write_error_classification asciiLower memDB .fresh duplicateRequest storeA "A"
      { bodyRealm with Name := "realm1" } realmA rfl rfl (by decide) (by decide)).1
      rfl (Or.inl rfl) uniqueViolation rfl).1.2 (by decide),
   ((write_error_classification asciiLower memDB .fresh updateRequest failingStore "A"
      { bodyRealm with ID := 44, Account := "A", CreatedAt := 99 } realmA rfl rfl
      (by decide) (by decide)).2
      rfl (Or.inr rfl) { msg := "connection refused", isRecordNotFound := false } rfl).2.1.2
      (by decide)⟩

/-! ## The record invariant -/

/-- A record that agrees with a well-formed record on owner, name and payload
is well formed. -/
theorem wellFormed_of_sameData (x y : AuthRealm) (h : x.sameData y) (hy : y.wellFormed) :
    x.wellFormed := by
  obtain ⟨h1, h2, h3⟩ := h
  obtain ⟨g1, g2, g3⟩ := hy
  exact ⟨h1 ▸ g1, h2 ▸ g2, h3 ▸ g3⟩

/-- The create handler keeps the invariant when the resolved account is not
empty. -/
theorem create_keeps_inv {σ : Type} (lc : Char → Char) (db : DB σ) (rows : σ → List AuthRealm)
    (hlaw : db.Lawful rows) (w : ResponseWriter) (r : Request) (s : σ)
    (hinv : StoreInv (rows s)) (hacc : ∀ account, r.account = .ok account → account ≠ "") :
    StoreInv (rows (CreateAuthRealmForAccount lc db w r s).2) := by
  unfold CreateAuthRealmForAccount
  simp only [GetAccount]
  cases hr : r.account with
  | error err => exact hinv
  | ok account =>
    simp only
    cases hb : authRealmFromRequestBody r.body with
    | error err => exact hinv
    | ok b =>
      simp only
      by_cases h1 : b.Name = "" ∨ b.CustomResource = none
      · rw [if_pos h1]; exact hinv
      · rw [if_neg h1]
        by_cases h2 : b.Account ≠ "" ∧ (validateAccount b account).isSome = true
        · rw [if_pos h2]; exact hinv
        · rw [if_neg h2]
          have hx : ({ b with Account := account } : AuthRealm).wellFormed :=
            ⟨hacc account hr, fun h => h1 (Or.inl h), fun h => h1 (Or.inr h)⟩
          have hpost : StoreInv (rows (db.Create { b with Account := account } s).2) := by
            intro y hy
            rcases hlaw.create_rows _ _ y hy with h | h
            · exact hinv y h
            · exact wellFormed_of_sameData _ _ h hx
          revert hpost
          generalize db.Create { b with Account := account } s = out
          rcases out with ⟨res, s1⟩
          intro hpost
          cases res with
          | error e =>
            simp only
            split <;> exact hpost
          | ok y => exact hpost

/-- The update handler keeps the invariant when the looked-up record is well
formed. -/
theorem update_keeps_inv {σ : Type} (lc : Char → Char) (db : DB σ) (rows : σ → List AuthRealm)
    (hlaw : db.Lawful rows) (w : ResponseWriter) (r : Request) (s : σ)
    (hinv : StoreInv (rows s)) (hctx : ∀ x, r.ctxAuthRealm = some x → x.wellFormed) :
    StoreInv (rows (UpdateAuthRealmByID lc db w r s).2) := by
  unfold UpdateAuthRealmByID
  simp only [getAuthRealm]
  cases hc : r.ctxAuthRealm with
  | none => exact hinv
  | some existing =>
    simp only
    cases hb : authRealmFromRequestBody r.body with
    | error err => exact hinv
    | ok b =>
      simp only
      by_cases h1 : b.Account ≠ "" ∧ b.Account ≠ existing.Account
      · rw [if_pos h1]; exact hinv
      · rw [if_neg h1]
        by_cases h2 : b.Name = "" ∨ b.CustomResource = none
        · rw [if_pos h2]; exact hinv
        · rw [if_neg h2]
          have hx : ({ b with ID := existing.ID, Account := existing.Account,
                              CreatedAt := existing.CreatedAt } : AuthRealm).wellFormed :=
            ⟨(hctx existing hc).1, fun h => h2 (Or.inl h), fun h => h2 (Or.inr h)⟩
          have hpost : StoreInv (rows (db.Save { b with
              ID := existing.ID, Account := existing.Account,
              CreatedAt := existing.CreatedAt } s).2) := by
            intro y hy
            rcases hlaw.save_rows _ _ y hy with h | h
            · exact hinv y h
            · exact wellFormed_of_sameData _ _ h hx
          revert hpost
          generalize db.Save { b with
              ID := existing.ID, Account := existing.Account,
              CreatedAt := existing.CreatedAt } s = out
          rcases out with ⟨res, s1⟩
          intro hpost
          cases res with
          | error e =>
            simp only
            split <;> exact hpost
          | ok y => exact hpost

/-- The delete handler keeps the invariant. -/
theorem delete_keeps_inv {σ : Type} (db : DB σ) (rows : σ → List AuthRealm)
    (hlaw : db.Lawful rows) (w : ResponseWriter) (r : Request) (s : σ)
    (hinv : StoreInv (rows s)) :
    StoreInv (rows (DeleteAuthRealmByID db w r s).2) := by
  unfold DeleteAuthRealmByID
  simp only [getAuthRealm]
  cases hc : r.ctxAuthRealm with
  | none => exact hinv
  | some existing =>
    simp only
    have hpost : StoreInv (rows (db.Delete existing s).2) := by
      intro y hy
      obtain ⟨z, hz, hyz⟩ := hlaw.delete_rows _ _ y hy
      exact wellFormed_of_sameData _ _ hyz (hinv z hz)
    revert hpost
    generalize db.Delete existing s = out
    rcases out with ⟨res, s1⟩
    intro hpost
    cases res with
    | none => exact hpost
    | some e => exact hpost

/-- The lookup middleware keeps the invariant when the downstream handler
keeps it on requests that carry a stored record. -/
theorem ctx_keeps_inv {σ : Type} (db : DB σ) (rows : σ → List AuthRealm)
    (hlaw : db.Lawful rows) (next : Handler σ) (w : ResponseWriter) (r : Request) (s : σ)
    (hinv : StoreInv (rows s))
    (hnext : ∀ w0 r0 s0, StoreInv (rows s0) → (∀ x, r0.ctxAuthRealm = some x → x.wellFormed) →
      StoreInv (rows (next w0 r0 s0).2)) :
    StoreInv (rows (AuthRealmCtx db next w r s).2) := by
  unfold AuthRealmCtx
  simp only [GetAccount]
  cases hr : r.account with
  | error err => exact hinv
  | ok account =>
    simp only
    by_cases hid : r.urlParamID ≠ ""
    · rw [if_pos hid]
      have hrows := hlaw.first_rows r.urlParamID s
      have hmem := hlaw.first_mem r.urlParamID s
      revert hrows hmem
      generalize db.First r.urlParamID s = out
      rcases out with ⟨res, s1⟩
      intro hrows hmem
      simp only at hrows hmem
      have hinv1 : StoreInv (rows s1) := by rw [hrows]; exact hinv
      cases res with
      | error e =>
        simp only
        split <;> exact hinv1
      | ok x =>
        simp only
        split
        · exact hinv1
        · apply hnext _ _ _ hinv1
          intro y hy
          simp only [Option.some.injEq] at hy
          subst hy
          exact hinv _ (hmem _ rfl)
    · rw [if_neg hid]; exact hinv

/-- The in-memory store respects the frame of a record store. -/
theorem memDB_lawful : memDB.Lawful MemStore.rows where
  find_rows a s := by
    unfold memDB
    cases hf : s.fault <;> simp [hf]
  first_rows i s := by
    unfold memDB
    cases hf : s.fault with
    | some e => simp [hf]
    | none =>
      simp only [hf]
      cases parseID i.data with
      | none => rfl
      | some n =>
        simp only
        cases s.rows.find? (fun y => y.DeletedAt.isNone && (y.ID == n)) <;> rfl
  first_mem i s x hx := by
    unfold memDB at hx
    cases hf : s.fault with
    | some e => simp [hf] at hx
    | none =>
      simp only [hf] at hx
      cases hp : parseID i.data with
      | none => simp [hp] at hx
      | some n =>
        simp only [hp] at hx
        cases hq : s.rows.find? (fun y => y.DeletedAt.isNone && (y.ID == n)) with
        | none => simp [hq] at hx
        | some y =>
          simp only [hq, Except.ok.injEq] at hx
          subst hx
          exact List.mem_of_find?_eq_some hq
  create_rows x s y hy := by
    unfold memDB at hy
    cases hf : s.fault with
    | some e =>
      simp only [hf] at hy
      exact Or.inl hy
    | none =>
      simp only [hf] at hy
      split at hy
      · exact Or.inl hy
      · simp only [List.mem_append, List.mem_singleton] at hy
        rcases hy with h | h
        · exact Or.inl h
        · subst h
          exact Or.inr ⟨rfl, rfl, rfl⟩
  save_rows x s y hy := by
    unfold memDB at hy
    cases hf : s.fault with
    | some e =>
      simp only [hf] at hy
      exact Or.inl hy
    | none =>
      simp only [hf] at hy
      split at hy
      · exact Or.inl hy
      · split at hy
        · simp only [List.mem_map] at hy
          obtain ⟨z, hz, hzy⟩ := hy
          split at hzy
          · subst hzy
            exact Or.inr ⟨rfl, rfl, rfl⟩
          · subst hzy
            exact Or.inl hz
        · simp only [List.mem_append, List.mem_singleton] at hy
          rcases hy with h | h
          · exact Or.inl h
          · subst h
            exact Or.inr ⟨rfl, rfl, rfl⟩
  delete_rows x s y hy := by
    unfold memDB at hy
    cases hf : s.fault with
    | some e =>
      simp only [hf] at hy
      exact ⟨y, hy, rfl, rfl, rfl⟩
    | none =>
      simp only [hf, List.mem_map] at hy
      obtain ⟨z, hz, hzy⟩ := hy
      split at hzy
      · subst hzy
        exact ⟨z, hz, rfl, rfl, rfl⟩
      · subst hzy
        exact ⟨z, hz, rfl, rfl, rfl⟩

/-- C9: on a store that respects the frame of a record store and in which
every record has non-empty Account, non-empty Name and non-nil CustomResource,
every operation of the service leaves the store with that property, for every
request body and id: create, for every caller account the resolver yields
(a tenant identifier, by the contract of the resolver); update and delete,
each behind the lookup, and the two reading operations, with no condition on
the account at all. -/
theorem store_invariant_preserved {σ : Type} (lc : Char → Char) (db : DB σ)
    (rows : σ → List AuthRealm) (hlaw : db.Lawful rows) (w : ResponseWriter) (r : Request)
    (s : σ) (hinv : StoreInv (rows s)) :
    (r.accountResolved → StoreInv (rows (CreateAuthRealmForAccount lc db w r s).2)) ∧
    StoreInv (rows (UpdateRoute lc db w r s).2) ∧
    StoreInv (rows (DeleteRoute db w r s).2) ∧
    StoreInv (rows (GetAuthRealmsForAccount db w r s).2) ∧
    StoreInv (rows (FetchRoute db w r s).2) := by
  refine ⟨fun hacc => create_keeps_inv lc db rows hlaw w r s hinv hacc, ?_, ?_, ?_, ?_⟩
  · exact ctx_keeps_inv db rows hlaw _ w r s hinv
      (fun w0 r0 s0 h0 hc => update_keeps_inv lc db rows hlaw w0 r0 s0 h0 hc)
  · exact ctx_keeps_inv db rows hlaw _ w r s hinv
      (fun w0 r0 s0 h0 _ => delete_keeps_inv db rows hlaw w0 r0 s0 h0)
  · unfold GetAuthRealmsForAccount
    simp only [GetAccount]
    cases hr : r.account with
    | error err => exact hinv
    | ok account =>
      simp only
      have hrows := hlaw.find_rows account s
      revert hrows
      generalize db.Find account s = out
      rcases out with ⟨res, s1⟩
      intro hrows
      simp only at hrows
      cases res with
      | error e => simp only [hrows]; exact hinv
      | ok l => simp only [hrows]; exact hinv
  · exact ctx_keeps_inv db rows hlaw _ w r s hinv
      (fun w0 r0 s0 h0 _ => by
        unfold GetAuthRealmByID getAuthRealm
        cases r0.ctxAuthRealm <;> exact h0)

/-- Witness: account `A` sends a request with a valid body and id `1` to each
operation on the in-memory store holding record `1`. -/
theorem store_invariant_preserved_witness :
    StoreInv (CreateAuthRealmForAccount asciiLower memDB .fresh updateRequest storeA).2.rows ∧
    StoreInv (UpdateRoute asciiLower memDB .fresh updateRequest storeA).2.rows ∧
    StoreInv (DeleteRoute memDB .fresh updateRequest storeA).2.rows ∧
    StoreInv (GetAuthRealmsForAccount memDB .fresh updateRequest storeA).2.rows ∧
    StoreInv (FetchRoute memDB .fresh updateRequest storeA).2.rows :=
  have h := store_invariant_preserved asciiLower memDB MemStore.rows memDB_lawful .fresh
    updateRequest storeA (by decide)
  ⟨h.1 (fun account ha => by
      have h2 : (Except.ok "A" : Except String String) = .ok account := ha
      rw [← Except.ok.inj h2]
      decide), h.2⟩

end services
